import Mathlib

/-!
Verification development for the `jupyterlab-document-collaborators`
extension (sources: `src/index.ts`, the toolbar roster surface, and
`src/cursor-labels.ts`, the floating cursor-label surface together with
the per-cell indicator surface).

The TypeScript sources are shallowly embedded: JS `Map`s become
association lists, `setTimeout`/`clearTimeout` bookkeeping becomes an
explicit multiset of pending timers, and the external collaboration
primitives (`createAbsolutePositionFromRelativePosition`,
`view.coordsAtPos`) become function parameters of each reconciliation
pass.  Machine arithmetic (`<<`, `& hash`, `Math.abs`) is modelled on
`Int` with explicit wrapping to the 32-bit signed range.
-/

namespace DocCollab

/-! ## JS string truthiness helpers

Models `a || b` on optional string values: `undefined` and the empty
string are falsy. -/

/-- Truthiness of a possibly-undefined JS string. -/
def jsTruthy : Option String → Bool
  | none => false
  | some s => !(s == "")

/-- `a || b` for two possibly-undefined strings. -/
def jsOr (a b : Option String) : Option String :=
  if jsTruthy a then a else b

/-- `a || b` where the right operand is a (truthy) string literal. -/
def jsOrS (a : Option String) (b : String) : String :=
  if jsTruthy a then a.getD b else b

/-! ## `generateUserColor` (src/index.ts lines 31-46, duplicated verbatim in
src/cursor-labels.ts lines 650-677)

`hash = (hash << 5) - hash + char; hash = hash & hash;` — `<<` coerces
its operand to int32 and yields an int32; the additive expression is
then exact in doubles and `& hash` wraps it back to int32. -/

/-- Wrap an integer to the 32-bit signed range, as JS `ToInt32`. -/
def toInt32 (n : Int) : Int :=
  let m := n % 4294967296
  if m < 2147483648 then m else m - 4294967296

/-- One step of the rolling hash as the source computes it:
`(hash << 5) - hash + char` followed by `hash = hash & hash`. -/
def hashStep (h : Int) (c : Nat) : Int :=
  toInt32 (toInt32 (h * 32) - h + c)

/-- The full rolling hash over a name's character codes. -/
def hashName (cs : List Nat) : Int :=
  cs.foldl hashStep 0

/-- The fixed 15-entry color palette of `generateUserColor`. -/
def colors : List String :=
  ["#4CAF50", "#2196F3", "#FF9800", "#9C27B0", "#F44336",
   "#009688", "#795548", "#607D8B", "#E91E63", "#3F51B5",
   "#00BCD4", "#8BC34A", "#FFC107", "#FF5722", "#9E9E9E"]

/-- `generateUserColor` from the source: index the palette at
`Math.abs(hash) % colors.length`. -/
def generateUserColor (cs : List Nat) : String :=
  colors.getD ((hashName cs).natAbs % colors.length) ""

/-- The spec's formula for one hash step: `h := (h << 5) - h + charCode`
wrapped (once) to the 32-bit signed range. -/
def hashSpecStep (h : Int) (c : Nat) : Int :=
  toInt32 (h * 32 - h + c)

/-- The spec's rolling hash. -/
def hashSpec (cs : List Nat) : Int :=
  cs.foldl hashSpecStep 0

/-- Character codes of a string (shared by the toolbar and cell
surfaces, which call `generateUserColor` on the resolved name). -/
def charCodes (s : String) : List Nat :=
  s.toList.map Char.toNat

/-- String-level wrapper used by the surface embeddings. -/
def generateUserColorS (s : String) : String :=
  generateUserColor (charCodes s)

theorem toInt32_emod (a : Int) : toInt32 a % 4294967296 = a % 4294967296 := by
  unfold toInt32
  dsimp only
  split
  · omega
  · omega

theorem toInt32_congr {a b : Int} (h : a % 4294967296 = b % 4294967296) :
    toInt32 a = toInt32 b := by
  unfold toInt32
  rw [h]

theorem hashStep_eq_spec (h : Int) (c : Nat) : hashStep h c = hashSpecStep h c := by
  unfold hashStep hashSpecStep
  apply toInt32_congr
  rw [Int.add_emod, Int.sub_emod, toInt32_emod, ← Int.sub_emod, ← Int.add_emod]

theorem hashName_eq_spec (cs : List Nat) : hashName cs = hashSpec cs := by
  unfold hashName hashSpec
  have : hashStep = hashSpecStep := by
    funext h c
    exact hashStep_eq_spec h c
  rw [this]

/-! ## `generateInitials` (src/index.ts lines 51-60, duplicated in
src/cursor-labels.ts lines 682-693) -/

/-- JS whitespace test (the characters `\s` matches that can occur in
user names; sufficient for the `trim`/`split(/\s+/)` semantics). -/
def isWs (c : Char) : Bool :=
  c == ' ' || c == '\t' || c == '\n' || c == '\r'

/-- `String.prototype.trim`: drop whitespace from both ends. -/
def jsTrim (cs : List Char) : List Char :=
  ((cs.dropWhile isWs).reverse.dropWhile isWs).reverse

/-- Accumulator-based splitting into maximal runs of non-whitespace. -/
def splitRunsAux : List Char → List Char → List (List Char)
  | [], acc => if acc = [] then [] else [acc.reverse]
  | c :: rest, acc =>
    if isWs c then
      if acc = [] then splitRunsAux rest []
      else acc.reverse :: splitRunsAux rest []
    else splitRunsAux rest (c :: acc)

/-- `trimmed.split(/\s+/)`: on the empty string JS yields `[""]`,
otherwise (the input being trimmed) the non-empty tokens. -/
def jsSplitWs (cs : List Char) : List (List Char) :=
  if cs = [] then [[]] else splitRunsAux cs []

/-- The whitespace-separated words of a name (empty list when the name
is empty or all whitespace). -/
def wordsOf (cs : List Char) : List (List Char) :=
  splitRunsAux (jsTrim cs) []

/-- `generateInitials` from the source: `'??'` for a falsy (empty) name,
first two characters of a single part, else first character of the
first and last part, uppercased. -/
def generateInitials (cs : List Char) : List Char :=
  if cs = [] then ['?', '?']
  else
    let parts := jsSplitWs (jsTrim cs)
    if parts.length = 1 then ((parts.headD []).take 2).map Char.toUpper
    else (((parts.headD []).take 1) ++ ((parts.getLastD []).take 1)).map Char.toUpper

/-! ## Bounds clamping (src/cursor-labels.ts lines 263-272)

`let position = head.index; if (position < 0) position = 0;
else if (position > docLength) position = docLength;` -/

/-- The offset actually passed to `view.coordsAtPos`. -/
def clampPos (p : Int) (docLength : Nat) : Nat :=
  if p < 0 then 0
  else if p > (docLength : Int) then docLength
  else p.toNat

/-! ## Association lists: the shallow embedding of JS `Map`

`aset` models `Map.set` (replace in place, else append), `aerase`
models `Map.delete` (remove the first — with unique keys the only —
entry), `alookup` models `Map.get`. -/

/-- `Map.get`. -/
def alookup {κ α : Type} [DecidableEq κ] : List (κ × α) → κ → Option α
  | [], _ => none
  | kv :: rest, k => if kv.1 = k then some kv.2 else alookup rest k

/-- `Map.set`. -/
def aset {κ α : Type} [DecidableEq κ] : List (κ × α) → κ → α → List (κ × α)
  | [], k, v => [(k, v)]
  | kv :: rest, k, v => if kv.1 = k then (k, v) :: rest else kv :: aset rest k v

/-- `Map.delete`. -/
def aerase {κ α : Type} [DecidableEq κ] : List (κ × α) → κ → List (κ × α)
  | [], _ => []
  | kv :: rest, k => if kv.1 = k then rest else kv :: aerase rest k

/-- `Map.keys` (insertion order). -/
def akeys {κ α : Type} (m : List (κ × α)) : List κ :=
  m.map Prod.fst

theorem akeys_cons {κ α : Type} {kv : κ × α} {m : List (κ × α)} :
    akeys (kv :: m) = kv.1 :: akeys m := rfl

section AssocLemmas

variable {κ α : Type} [DecidableEq κ]

theorem alookup_cons_self {k1 : κ} {v1 : α} {rest : List (κ × α)} :
    alookup ((k1, v1) :: rest) k1 = some v1 := by
  simp [alookup]

theorem alookup_cons_ne {k1 k : κ} {v1 : α} {rest : List (κ × α)} (h : ¬(k1 = k)) :
    alookup ((k1, v1) :: rest) k = alookup rest k := by
  simp [alookup, h]

theorem aset_cons_self {k1 : κ} {v1 v : α} {rest : List (κ × α)} :
    aset ((k1, v1) :: rest) k1 v = (k1, v) :: rest := by
  simp [aset]

theorem aset_cons_ne {k1 k : κ} {v1 v : α} {rest : List (κ × α)} (h : ¬(k1 = k)) :
    aset ((k1, v1) :: rest) k v = (k1, v1) :: aset rest k v := by
  simp [aset, h]

theorem aerase_cons_self {k1 : κ} {v1 : α} {rest : List (κ × α)} :
    aerase ((k1, v1) :: rest) k1 = rest := by
  simp [aerase]

theorem aerase_cons_ne {k1 k : κ} {v1 : α} {rest : List (κ × α)} (h : ¬(k1 = k)) :
    aerase ((k1, v1) :: rest) k = (k1, v1) :: aerase rest k := by
  simp [aerase, h]

theorem alookup_eq_none {m : List (κ × α)} {k : κ} :
    alookup m k = none ↔ k ∉ akeys m := by
  induction m with
  | nil => simp [alookup, akeys]
  | cons kv rest ih =>
    obtain ⟨k1, v1⟩ := kv
    by_cases h : k1 = k
    · subst h
      rw [alookup_cons_self, akeys_cons]
      simp
    · rw [alookup_cons_ne h, akeys_cons, ih]
      simp only [List.mem_cons, not_or]
      constructor
      · exact fun hk => ⟨fun he => h he.symm, hk⟩
      · exact fun hk => hk.2

theorem alookup_mem {m : List (κ × α)} {k : κ} {v : α}
    (h : alookup m k = some v) : (k, v) ∈ m := by
  induction m with
  | nil => simp [alookup] at h
  | cons kv rest ih =>
    obtain ⟨k1, v1⟩ := kv
    by_cases hk : k1 = k
    · subst hk
      rw [alookup_cons_self] at h
      obtain rfl : v1 = v := Option.some.inj h
      exact List.mem_cons_self _ _
    · rw [alookup_cons_ne hk] at h
      exact List.mem_cons_of_mem _ (ih h)

theorem mem_akeys_aset {m : List (κ × α)} {k a : κ} {v : α} :
    a ∈ akeys (aset m k v) ↔ a ∈ akeys m ∨ a = k := by
  induction m with
  | nil => simp [aset, akeys]
  | cons kv rest ih =>
    obtain ⟨k1, v1⟩ := kv
    by_cases h : k1 = k
    · subst h
      rw [aset_cons_self, akeys_cons, akeys_cons]
      simp only [List.mem_cons]
      tauto
    · rw [aset_cons_ne h, akeys_cons, akeys_cons]
      simp only [List.mem_cons]
      rw [ih]
      tauto

theorem mem_akeys_aerase {m : List (κ × α)} {k a : κ}
    (hn : (akeys m).Nodup) :
    a ∈ akeys (aerase m k) ↔ a ∈ akeys m ∧ a ≠ k := by
  induction m with
  | nil => simp [aerase, akeys]
  | cons kv rest ih =>
    obtain ⟨k1, v1⟩ := kv
    rw [akeys_cons, List.nodup_cons] at hn
    by_cases h : k1 = k
    · subst h
      rw [aerase_cons_self, akeys_cons]
      simp only [List.mem_cons]
      constructor
      · intro hm
        refine ⟨Or.inr hm, ?_⟩
        rintro rfl
        exact hn.1 hm
      · rintro ⟨(rfl | hm), hne⟩
        · exact absurd rfl hne
        · exact hm
    · rw [aerase_cons_ne h, akeys_cons, akeys_cons]
      simp only [List.mem_cons]
      rw [ih hn.2]
      constructor
      · rintro (rfl | ⟨hm, hne⟩)
        · exact ⟨Or.inl rfl, h⟩
        · exact ⟨Or.inr hm, hne⟩
      · rintro ⟨(rfl | hm), hne⟩
        · exact Or.inl rfl
        · exact Or.inr ⟨hm, hne⟩

theorem nodup_akeys_aset {m : List (κ × α)} {k : κ} {v : α}
    (hn : (akeys m).Nodup) : (akeys (aset m k v)).Nodup := by
  induction m with
  | nil => simp [aset, akeys]
  | cons kv rest ih =>
    obtain ⟨k1, v1⟩ := kv
    rw [akeys_cons, List.nodup_cons] at hn
    by_cases h : k1 = k
    · subst h
      rw [aset_cons_self, akeys_cons, List.nodup_cons]
      exact hn
    · rw [aset_cons_ne h, akeys_cons, List.nodup_cons]
      refine ⟨?_, ih hn.2⟩
      intro hm
      rcases (mem_akeys_aset).mp hm with hm' | rfl
      · exact hn.1 hm'
      · exact h rfl

theorem nodup_akeys_aerase {m : List (κ × α)} {k : κ}
    (hn : (akeys m).Nodup) : (akeys (aerase m k)).Nodup := by
  induction m with
  | nil => simp [aerase, akeys]
  | cons kv rest ih =>
    obtain ⟨k1, v1⟩ := kv
    rw [akeys_cons, List.nodup_cons] at hn
    by_cases h : k1 = k
    · subst h
      rw [aerase_cons_self]
      exact hn.2
    · rw [aerase_cons_ne h, akeys_cons, List.nodup_cons]
      refine ⟨?_, ih hn.2⟩
      intro hm
      exact hn.1 ((mem_akeys_aerase hn.2).mp hm).1

theorem alookup_aset_self {m : List (κ × α)} {k : κ} {v : α} :
    alookup (aset m k v) k = some v := by
  induction m with
  | nil => simp [aset, alookup]
  | cons kv rest ih =>
    obtain ⟨k1, v1⟩ := kv
    by_cases h : k1 = k
    · subst h
      rw [aset_cons_self, alookup_cons_self]
    · rw [aset_cons_ne h, alookup_cons_ne h]
      exact ih

theorem alookup_aset_ne {m : List (κ × α)} {k a : κ} {v : α} (h : a ≠ k) :
    alookup (aset m k v) a = alookup m a := by
  have hks : ¬(k = a) := fun he => h he.symm
  induction m with
  | nil => simp [aset, alookup, hks]
  | cons kv rest ih =>
    obtain ⟨k1, v1⟩ := kv
    by_cases hk : k1 = k
    · subst hk
      rw [aset_cons_self, alookup_cons_ne hks, alookup_cons_ne hks]
    · rw [aset_cons_ne hk]
      by_cases ha : k1 = a
      · subst ha
        rw [alookup_cons_self, alookup_cons_self]
      · rw [alookup_cons_ne ha, alookup_cons_ne ha]
        exact ih

theorem alookup_aerase_self {m : List (κ × α)} {k : κ}
    (hn : (akeys m).Nodup) : alookup (aerase m k) k = none := by
  rw [alookup_eq_none]
  intro hm
  exact ((mem_akeys_aerase hn).mp hm).2 rfl

theorem alookup_aerase_ne {m : List (κ × α)} {k a : κ} (h : a ≠ k) :
    alookup (aerase m k) a = alookup m a := by
  have hks : ¬(k = a) := fun he => h he.symm
  induction m with
  | nil => simp [aerase, alookup]
  | cons kv rest ih =>
    obtain ⟨k1, v1⟩ := kv
    by_cases hk : k1 = k
    · subst hk
      rw [aerase_cons_self, alookup_cons_ne hks]
    · rw [aerase_cons_ne hk]
      by_cases ha : k1 = a
      · subst ha
        rw [alookup_cons_self, alookup_cons_self]
      · rw [alookup_cons_ne ha, alookup_cons_ne ha]
        exact ih

end AssocLemmas

/-! ## Awareness data model (src/cursor-labels.ts lines 51-93)

A `RelativePosition` is an opaque token (`Nat`); its resolution by
`createAbsolutePositionFromRelativePosition` is supplied per pass by the
environment, as is `view.coordsAtPos`. -/

/-- The `user` field of an awareness state.  The toolbar surface reads
`displayName`, the other two surfaces read `display_name`. -/
structure User where
  name : Option String := none
  display_name : Option String := none
  displayName : Option String := none
  color : Option String := none
  avatar_url : Option String := none
  avatarUrl : Option String := none
  email : Option String := none
deriving Repr, DecidableEq

/-- One entry of a `cursors` array; only `head` matters for rendering. -/
structure Cursor where
  head : Option Nat := none
deriving Repr, DecidableEq

/-- One awareness state (the value of `getStates()` at some client id). -/
structure AwarenessState where
  user : Option User := none
  cursors : Option (List Cursor) := none
deriving Repr, DecidableEq

/-- Result of resolving a relative position: whether `head.type` is this
surface's `ytext`, and `head.index`. -/
structure AbsPos where
  typeIsThisYtext : Bool
  index : Int
deriving Repr, DecidableEq

/-- A screen coordinate pair returned by `view.coordsAtPos`. -/
structure Coords where
  left : Int
  top : Int
deriving Repr, DecidableEq

/-- Per-pass environment: the local client id, the document length, and
the two external primitives. -/
structure Env where
  ownClientID : Nat
  docLength : Nat
  resolve : Nat → Option AbsPos
  coordsAtPos : Nat → Option Coords

/-- An awareness snapshot: `getStates()` as an association list. -/
abbrev Snapshot : Type := List (Nat × AwarenessState)

/-! ## Floating cursor-label surface state (src/cursor-labels.ts lines 137-337)

`labelElements` and `hideTimers` are the two `Map` fields of the view
plugin; `pendingTimers` is the multiset of scheduled-but-neither-fired-
nor-cancelled `setTimeout` callbacks `(timer id, user key)`, and
`nextTimer` produces fresh (browser: nonzero) timer ids. -/

/-- One floating label element (the DOM node's rendered content). -/
structure Label where
  name : String
  color : String
  left : Int
  top : Int
  visible : Bool
deriving Repr, DecidableEq

/-- The mutable state of the cursor-label view plugin. -/
structure LabelState where
  labelElements : List (String × Label)
  hideTimers : List (String × Nat)
  pendingTimers : List (Nat × String)
  nextTimer : Nat
deriving Repr, DecidableEq

/-- State at plugin construction (browser timer ids start positive). -/
def initLabelState : LabelState :=
  { labelElements := [], hideTimers := [], pendingTimers := [], nextTimer := 1 }

/-- The name shown by the cursor-label surface
(src/cursor-labels.ts line 241):
`user?.display_name || user?.name || \`User ${clientID}\``. -/
def cursorLabelUserName (u : Option User) (clientID : Nat) : String :=
  jsOrS (jsOr (u.bind User.display_name) (u.bind User.name))
    ("User " ++ toString clientID)

/-- The color used by the cursor-label surface (line 242). -/
def cursorLabelUserColor (u : Option User) : String :=
  jsOrS (u.bind User.color) "#2196F3"

/-- The diffing key (line 244): `` `${clientID}-${userName}` ``. -/
def clientKeyOf (e : Nat × AwarenessState) : String :=
  toString e.1 ++ "-" ++ cursorLabelUserName e.2.user e.1

/-- `createLabelElement` (lines 347-368): a freshly created label node
before positioning. -/
def createLabelElement (userName userColor : String) : Label :=
  { name := userName, color := userColor, left := 0, top := 0, visible := false }

/-- The success branch of the per-cursor loop (lines 281-313): create or
update the key's label at the looked-up coordinates, clear the key's
existing hide timer and schedule a fresh one. -/
def renderLabel (userKey userName userColor : String) (co : Coords)
    (st : LabelState) : LabelState :=
  let base :=
    match alookup st.labelElements userKey with
    | some l => l
    | none => createLabelElement userName userColor
  let lbl := { base with left := co.left, top := co.top - 12, visible := true }
  let cleared :=
    match alookup st.hideTimers userKey with
    | some t => st.pendingTimers.filter (fun p => !(p.1 == t))
    | none => st.pendingTimers
  { labelElements := aset st.labelElements userKey lbl
    hideTimers := aset st.hideTimers userKey st.nextTimer
    pendingTimers := cleared ++ [(st.nextTimer, userKey)]
    nextTimer := st.nextTimer + 1 }

/-- The body of the per-cursor loop of `updateOverlayLabels`
(lines 248-317): resolve the head, require it to belong to this
`ytext`, clamp, look up coordinates; on success render the label. -/
def processCursor (env : Env) (userKey userName userColor : String)
    (st : LabelState) (c : Cursor) : LabelState :=
  match c.head with
  | none => st
  | some relPos =>
    match env.resolve relPos with
    | none => st
    | some headAbs =>
      if !headAbs.typeIsThisYtext then st
      else
        match env.coordsAtPos (clampPos headAbs.index env.docLength) with
        | none => st
        | some co => renderLabel userKey userName userColor co st

/-- Whether the per-cursor loop reaches its success branch. -/
def renderSuccess (env : Env) (c : Cursor) : Bool :=
  match c.head with
  | none => false
  | some relPos =>
    match env.resolve relPos with
    | none => false
    | some headAbs =>
      headAbs.typeIsThisYtext &&
        (env.coordsAtPos (clampPos headAbs.index env.docLength)).isSome

/-- `processCursor` either does nothing or renders: it equals `st` when
`renderSuccess` fails, and `renderLabel` at the looked-up coordinates
otherwise. -/
theorem processCursor_cases (env : Env) (userKey userName userColor : String)
    (st : LabelState) (c : Cursor) :
    (renderSuccess env c = false ∧
      processCursor env userKey userName userColor st c = st) ∨
    (renderSuccess env c = true ∧ ∃ co,
      processCursor env userKey userName userColor st c =
        renderLabel userKey userName userColor co st) := by
  rcases hh : c.head with - | relPos
  · exact Or.inl ⟨by simp [renderSuccess, hh], by simp [processCursor, hh]⟩
  · rcases hr : env.resolve relPos with - | headAbs
    · exact Or.inl ⟨by simp [renderSuccess, hh, hr], by simp [processCursor, hh, hr]⟩
    · rcases hty : headAbs.typeIsThisYtext with - | -
      · exact Or.inl ⟨by simp [renderSuccess, hh, hr, hty],
          by simp [processCursor, hh, hr, hty]⟩
      · rcases hco : env.coordsAtPos (clampPos headAbs.index env.docLength) with - | co
        · exact Or.inl ⟨by simp [renderSuccess, hh, hr, hty, hco],
            by simp [processCursor, hh, hr, hty, hco]⟩
        · exact Or.inr ⟨by simp [renderSuccess, hh, hr, hty, hco], co,
            by simp [processCursor, hh, hr, hty, hco]⟩

/-- The body of the per-client loop of `updateOverlayLabels`
(lines 234-318): skip the local client, resolve name/color/key, add the
key to `activeUsers` unconditionally, then walk the cursors. -/
def processClient (env : Env) (acc : LabelState × List String)
    (e : Nat × AwarenessState) : LabelState × List String :=
  if e.1 = env.ownClientID then acc
  else
    let userName := cursorLabelUserName e.2.user e.1
    let userColor := cursorLabelUserColor e.2.user
    let userKey := clientKeyOf e
    let st := (e.2.cursors.getD []).foldl
      (fun s c => processCursor env userKey userName userColor s c) acc.1
    (st, acc.2 ++ [userKey])

/-- Removal of one inactive entry (lines 322-335): clear the key's hide
timer if any, then detach and delete the label. -/
def eraseInactiveKey (userKey : String) (st : LabelState) : LabelState :=
  let st1 :=
    match alookup st.hideTimers userKey with
    | some t =>
      { st with
        pendingTimers := st.pendingTimers.filter (fun p => !(p.1 == t))
        hideTimers := aerase st.hideTimers userKey }
    | none => st
  { st1 with labelElements := aerase st1.labelElements userKey }

/-- The `labelElements.forEach` removal sweep (lines 320-336), iterating
over the entries present when the sweep starts. -/
def removeInactiveGo (activeUsers : List String) :
    List (String × Label) → LabelState → LabelState
  | [], st => st
  | kv :: rest, st =>
    removeInactiveGo activeUsers rest
      (if activeUsers.contains kv.1 then st else eraseInactiveKey kv.1 st)

/-- One reconciliation pass: `updateOverlayLabels` (lines 229-337). -/
def updateOverlayLabels (env : Env) (snap : Snapshot) (st : LabelState) :
    LabelState :=
  let folded := snap.foldl (processClient env) (st, [])
  removeInactiveGo folded.2 folded.1.labelElements folded.1

/-- Expiry of the hide timer with id `t` (the `setTimeout` callback of
lines 304-311): hide the key's label if still present and delete the
key's `hideTimers` entry. -/
def fireTimer (t : Nat) (st : LabelState) : LabelState :=
  match st.pendingTimers.find? (fun p => p.1 == t) with
  | none => st
  | some p =>
    { labelElements :=
        match alookup st.labelElements p.2 with
        | some l => aset st.labelElements p.2 { l with visible := false }
        | none => st.labelElements
      hideTimers := aerase st.hideTimers p.2
      pendingTimers := st.pendingTimers.filter (fun q => !(q.1 == t))
      nextTimer := st.nextTimer }

/-- `destroy` (lines 187-203): clear every hide timer, clear the map,
detach every label, clear the map. -/
def destroyLabels (st : LabelState) : LabelState :=
  { labelElements := []
    hideTimers := []
    pendingTimers :=
      st.pendingTimers.filter (fun p => st.hideTimers.all (fun kv => !(kv.2 == p.1)))
    nextTimer := st.nextTimer }

/-- Events driving the cursor-label surface. -/
inductive LEvent where
  | pass (env : Env) (snap : Snapshot)
  | fire (t : Nat)
  | destroy

/-- One step of the surface. -/
def lstep (st : LabelState) : LEvent → LabelState
  | LEvent.pass env snap => updateOverlayLabels env snap st
  | LEvent.fire t => fireTimer t st
  | LEvent.destroy => destroyLabels st

/-- A whole execution from plugin construction. -/
def lrun (es : List LEvent) : LabelState :=
  es.foldl lstep initLabelState

/-! ## Well-formedness of the cursor-label surface state -/

/-- Invariants of `LabelState` maintained by every event:
unique keys in both maps, at most one pending timer per key and per id,
every pending timer recorded in `hideTimers` under its key, every timed
key tracked in `labelElements`, and pending ids below the allocator. -/
structure WFState (st : LabelState) : Prop where
  nl : (akeys st.labelElements).Nodup
  nt : (akeys st.hideTimers).Nodup
  np : (st.pendingTimers.map Prod.snd).Nodup
  ni : (st.pendingTimers.map Prod.fst).Nodup
  pt : ∀ p ∈ st.pendingTimers, alookup st.hideTimers p.2 = some p.1
  tl : ∀ a ∈ akeys st.hideTimers, a ∈ akeys st.labelElements
  fresh : ∀ p ∈ st.pendingTimers, p.1 < st.nextTimer

theorem wf_init : WFState initLabelState := by
  constructor <;> simp [initLabelState, akeys]

/-- The pending-timer list after clearing, in `renderLabel`. -/
def clearedPending (userKey : String) (st : LabelState) : List (Nat × String) :=
  match alookup st.hideTimers userKey with
  | some t => st.pendingTimers.filter (fun p => !(p.1 == t))
  | none => st.pendingTimers

theorem renderLabel_pending {userKey userName userColor : String} {co : Coords}
    {st : LabelState} :
    (renderLabel userKey userName userColor co st).pendingTimers =
      clearedPending userKey st ++ [(st.nextTimer, userKey)] := rfl

theorem clearedPending_spec {userKey : String} {st : LabelState}
    (hw : WFState st) :
    ∀ p ∈ clearedPending userKey st, p ∈ st.pendingTimers ∧ p.2 ≠ userKey := by
  intro p hp
  unfold clearedPending at hp
  cases ht : alookup st.hideTimers userKey with
  | none =>
    rw [ht] at hp
    refine ⟨hp, fun he => ?_⟩
    have hpt := hw.pt p hp
    rw [he, ht] at hpt
    exact Option.noConfusion hpt
  | some t =>
    rw [ht] at hp
    have hmem := List.mem_of_mem_filter hp
    have hne : ¬((p.1 == t) = true) := by
      have := List.of_mem_filter hp
      simpa using this
    refine ⟨hmem, fun he => ?_⟩
    have hpt := hw.pt p hmem
    rw [he, ht] at hpt
    exact hne (by simp [Option.some.inj hpt])

theorem clearedPending_sublist {userKey : String} {st : LabelState} :
    (clearedPending userKey st).Sublist st.pendingTimers := by
  unfold clearedPending
  cases alookup st.hideTimers userKey with
  | none => exact List.Sublist.refl _
  | some t => exact List.filter_sublist _

theorem wf_renderLabel {userKey userName userColor : String} {co : Coords}
    {st : LabelState} (hw : WFState st) :
    WFState (renderLabel userKey userName userColor co st) := by
  have hclr := @clearedPending_spec userKey st hw
  have hsub := @clearedPending_sublist userKey st
  constructor
  · exact nodup_akeys_aset hw.nl
  · exact nodup_akeys_aset hw.nt
  · rw [renderLabel_pending, List.map_append, List.nodup_append]
    refine ⟨(hw.np).sublist (hsub.map Prod.snd), by simp, ?_⟩
    intro a ha
    simp only [List.map_cons, List.map_nil, List.mem_singleton]
    rcases List.mem_map.mp ha with ⟨p, hp, rfl⟩
    exact fun he => (hclr p hp).2 he
  · rw [renderLabel_pending, List.map_append, List.nodup_append]
    refine ⟨(hw.ni).sublist (hsub.map Prod.fst), by simp, ?_⟩
    intro a ha
    simp only [List.map_cons, List.map_nil, List.mem_singleton]
    rcases List.mem_map.mp ha with ⟨p, hp, rfl⟩
    intro he
    have := hw.fresh p (hclr p hp).1
    rw [he] at this
    exact lt_irrefl _ this
  · intro p hp
    rw [renderLabel_pending] at hp
    rcases List.mem_append.mp hp with hp1 | hp1
    · have h2 := hclr p hp1
      show alookup (aset st.hideTimers userKey st.nextTimer) p.2 = some p.1
      rw [alookup_aset_ne h2.2]
      exact hw.pt p h2.1
    · have hpe : p = (st.nextTimer, userKey) := by simpa using hp1
      subst hpe
      exact alookup_aset_self
  · intro a ha
    have ha' : a ∈ akeys (aset st.hideTimers userKey st.nextTimer) := ha
    rcases mem_akeys_aset.mp ha' with ha1 | rfl
    · exact mem_akeys_aset.mpr (Or.inl (hw.tl a ha1))
    · exact mem_akeys_aset.mpr (Or.inr rfl)
  · intro p hp
    rw [renderLabel_pending] at hp
    rcases List.mem_append.mp hp with hp1 | hp1
    · exact Nat.lt_succ_of_lt (hw.fresh p (hclr p hp1).1)
    · have hpe : p = (st.nextTimer, userKey) := by simpa using hp1
      subst hpe
      exact Nat.lt_succ_self _

theorem wf_processCursor {env : Env} {userKey userName userColor : String}
    {st : LabelState} {c : Cursor} (hw : WFState st) :
    WFState (processCursor env userKey userName userColor st c) := by
  rcases processCursor_cases env userKey userName userColor st c with
    ⟨-, he⟩ | ⟨-, co, he⟩
  · rw [he]
    exact hw
  · rw [he]
    exact wf_renderLabel hw

theorem wf_foldCursors {env : Env} {userKey userName userColor : String}
    {cs : List Cursor} {st : LabelState} (hw : WFState st) :
    WFState (cs.foldl
      (fun s c => processCursor env userKey userName userColor s c) st) := by
  induction cs generalizing st with
  | nil => exact hw
  | cons c rest ih =>
    rw [List.foldl_cons]
    exact ih (wf_processCursor hw)

theorem wf_processClient {env : Env} {acc : LabelState × List String}
    {e : Nat × AwarenessState} (hw : WFState acc.1) :
    WFState (processClient env acc e).1 := by
  unfold processClient
  by_cases h : e.1 = env.ownClientID
  · simp only [h, if_pos rfl]
    exact hw
  · rw [if_neg h]
    exact wf_foldCursors hw

theorem wf_foldClients {env : Env} {snap : Snapshot}
    {acc : LabelState × List String} (hw : WFState acc.1) :
    WFState (snap.foldl (processClient env) acc).1 := by
  induction snap generalizing acc with
  | nil => exact hw
  | cons e rest ih =>
    rw [List.foldl_cons]
    exact ih (wf_processClient hw)

theorem wf_eraseInactiveKey {userKey : String} {st : LabelState}
    (hw : WFState st) : WFState (eraseInactiveKey userKey st) := by
  unfold eraseInactiveKey
  cases ht : alookup st.hideTimers userKey with
  | none =>
    dsimp only
    constructor
    · exact nodup_akeys_aerase hw.nl
    · exact hw.nt
    · exact hw.np
    · exact hw.ni
    · exact hw.pt
    · intro a ha
      have hal : a ∈ akeys st.labelElements := hw.tl a ha
      have hne : a ≠ userKey := by
        intro he
        subst he
        rw [alookup_eq_none] at ht
        exact ht ha
      exact (mem_akeys_aerase hw.nl).mpr ⟨hal, hne⟩
    · exact hw.fresh
  | some t =>
    dsimp only
    have hclr : ∀ p ∈ st.pendingTimers.filter (fun q => !(q.1 == t)),
        p ∈ st.pendingTimers ∧ p.2 ≠ userKey := by
      intro p hp
      have hmem := List.mem_of_mem_filter hp
      have hne : ¬((p.1 == t) = true) := by
        have := List.of_mem_filter hp
        simpa using this
      refine ⟨hmem, fun he => ?_⟩
      have hpt := hw.pt p hmem
      rw [he, ht] at hpt
      exact hne (by simp [Option.some.inj hpt])
    constructor
    · exact nodup_akeys_aerase hw.nl
    · exact nodup_akeys_aerase hw.nt
    · exact hw.np.sublist ((List.filter_sublist _).map Prod.snd)
    · exact hw.ni.sublist ((List.filter_sublist _).map Prod.fst)
    · intro p hp
      have h2 := hclr p hp
      show alookup (aerase st.hideTimers userKey) p.2 = some p.1
      rw [alookup_aerase_ne h2.2]
      exact hw.pt p h2.1
    · intro a ha
      have ha' := (mem_akeys_aerase hw.nt).mp ha
      exact (mem_akeys_aerase hw.nl).mpr ⟨hw.tl a ha'.1, ha'.2⟩
    · intro p hp
      exact hw.fresh p (hclr p hp).1

theorem wf_removeInactiveGo {activeUsers : List String}
    {l : List (String × Label)} {st : LabelState} (hw : WFState st) :
    WFState (removeInactiveGo activeUsers l st) := by
  induction l generalizing st with
  | nil => exact hw
  | cons kv rest ih =>
    unfold removeInactiveGo
    by_cases h : activeUsers.contains kv.1
    · rw [if_pos h]
      exact ih hw
    · rw [if_neg h]
      exact ih (wf_eraseInactiveKey hw)

theorem wf_updateOverlayLabels {env : Env} {snap : Snapshot} {st : LabelState}
    (hw : WFState st) : WFState (updateOverlayLabels env snap st) := by
  unfold updateOverlayLabels
  exact wf_removeInactiveGo (wf_foldClients hw)

theorem wf_fireTimer {t : Nat} {st : LabelState} (hw : WFState st) :
    WFState (fireTimer t st) := by
  unfold fireTimer
  cases hf : st.pendingTimers.find? (fun p => p.1 == t) with
  | none => exact hw
  | some p =>
    have hpmem : p ∈ st.pendingTimers := List.mem_of_find?_eq_some hf
    have hpt := List.find?_some hf
    have hpteq : p.1 = t := by simpa using hpt
    dsimp only
    have hfl : ∀ q ∈ st.pendingTimers.filter (fun q => !(q.1 == t)),
        q ∈ st.pendingTimers ∧ q.2 ≠ p.2 := by
      intro q hq
      have hqmem := List.mem_of_mem_filter hq
      have hqne : ¬((q.1 == t) = true) := by
        have := List.of_mem_filter hq
        simpa using this
      refine ⟨hqmem, fun he => ?_⟩
      have h1 := hw.pt q hqmem
      have h2 := hw.pt p hpmem
      rw [he] at h1
      rw [h1] at h2
      have : q.1 = p.1 := Option.some.inj h2
      exact hqne (by simp [this, hpteq])
    constructor
    · cases alookup st.labelElements p.2 with
      | none => exact hw.nl
      | some l => exact nodup_akeys_aset hw.nl
    · exact nodup_akeys_aerase hw.nt
    · exact hw.np.sublist ((List.filter_sublist _).map Prod.snd)
    · exact hw.ni.sublist ((List.filter_sublist _).map Prod.fst)
    · intro q hq
      have h2 := hfl q hq
      show alookup (aerase st.hideTimers p.2) q.2 = some q.1
      rw [alookup_aerase_ne h2.2]
      exact hw.pt q h2.1
    · intro a ha
      have ha' := (mem_akeys_aerase hw.nt).mp ha
      have hal := hw.tl a ha'.1
      cases alookup st.labelElements p.2 with
      | none => exact hal
      | some l => exact mem_akeys_aset.mpr (Or.inl hal)
    · intro q hq
      exact hw.fresh q (hfl q hq).1

theorem destroyLabels_pending_nil {st : LabelState} (hw : WFState st) :
    (destroyLabels st).pendingTimers = [] := by
  unfold destroyLabels
  dsimp only
  rw [List.filter_eq_nil_iff]
  intro p hp
  have hmem := alookup_mem (hw.pt p hp)
  intro hall
  rw [List.all_eq_true] at hall
  have := hall (p.2, p.1) hmem
  simp at this

theorem wf_destroyLabels {st : LabelState} (hw : WFState st) :
    WFState (destroyLabels st) := by
  have hp := destroyLabels_pending_nil hw
  constructor
  · simp [destroyLabels, akeys]
  · simp [destroyLabels, akeys]
  · rw [hp]
    exact List.nodup_nil
  · rw [hp]
    exact List.nodup_nil
  · rw [hp]
    intro p hp'
    exact absurd hp' (List.not_mem_nil p)
  · intro a ha
    simp [destroyLabels, akeys] at ha
  · rw [hp]
    intro p hp'
    exact absurd hp' (List.not_mem_nil p)

theorem wf_lstep {st : LabelState} {e : LEvent} (hw : WFState st) :
    WFState (lstep st e) := by
  cases e with
  | pass env snap => exact wf_updateOverlayLabels hw
  | fire t => exact wf_fireTimer hw
  | destroy => exact wf_destroyLabels hw

theorem wf_lrun (es : List LEvent) : WFState (lrun es) := by
  suffices h : ∀ st, WFState st → WFState (es.foldl lstep st) from h _ wf_init
  induction es with
  | nil => exact fun st hw => hw
  | cons e rest ih =>
    intro st hw
    rw [List.foldl_cons]
    exact ih _ (wf_lstep hw)

/-! ## The tracked key set after one reconciliation pass -/

/-- The `activeUsers` set built by a pass over `snap`: every remote
client contributes its key, whether or not any cursor renders. -/
def activeKeys (env : Env) (snap : Snapshot) : List String :=
  (snap.filter (fun e => !(e.1 == env.ownClientID))).map clientKeyOf

/-- A key receives a successful render in this pass: some remote entry
with this key has a cursor whose head resolves into this surface's
`ytext` and whose coordinate lookup succeeds. -/
def RenderedIn (env : Env) (snap : Snapshot) (a : String) : Prop :=
  ∃ e ∈ snap, e.1 ≠ env.ownClientID ∧ clientKeyOf e = a ∧
    ∃ c ∈ e.2.cursors.getD [], renderSuccess env c = true

instance (env : Env) (snap : Snapshot) (a : String) :
    Decidable (RenderedIn env snap a) := by
  unfold RenderedIn
  infer_instance

theorem keys_renderLabel {userKey userName userColor : String} {co : Coords}
    {st : LabelState} {a : String} :
    (a ∈ akeys (renderLabel userKey userName userColor co st).labelElements) ↔
      a ∈ akeys st.labelElements ∨ a = userKey := by
  unfold renderLabel
  exact mem_akeys_aset

theorem keys_processCursor {env : Env} {userKey userName userColor : String}
    {st : LabelState} {c : Cursor} {a : String} :
    (a ∈ akeys (processCursor env userKey userName userColor st c).labelElements) ↔
      a ∈ akeys st.labelElements ∨ (a = userKey ∧ renderSuccess env c = true) := by
  rcases processCursor_cases env userKey userName userColor st c with
    ⟨hs, he⟩ | ⟨hs, co, he⟩
  · rw [he, hs]
    simp
  · rw [he, hs, keys_renderLabel]
    simp

theorem keys_foldCursors {env : Env} {userKey userName userColor : String}
    {cs : List Cursor} {st : LabelState} {a : String} :
    (a ∈ akeys ((cs.foldl
        (fun s c => processCursor env userKey userName userColor s c) st)).labelElements) ↔
      a ∈ akeys st.labelElements ∨
        (a = userKey ∧ ∃ c ∈ cs, renderSuccess env c = true) := by
  induction cs generalizing st with
  | nil => simp
  | cons c rest ih =>
    rw [List.foldl_cons, ih, keys_processCursor]
    constructor
    · rintro ((h1 | ⟨rfl, h2⟩) | ⟨rfl, cc, hc, hs⟩)
      · exact Or.inl h1
      · exact Or.inr ⟨rfl, c, List.mem_cons_self _ _, h2⟩
      · exact Or.inr ⟨rfl, cc, List.mem_cons_of_mem _ hc, hs⟩
    · rintro (h1 | ⟨rfl, cc, hc, hs⟩)
      · exact Or.inl (Or.inl h1)
      · rcases List.mem_cons.mp hc with rfl | hc'
        · exact Or.inl (Or.inr ⟨rfl, hs⟩)
        · exact Or.inr ⟨rfl, cc, hc', hs⟩

theorem keys_processClient {env : Env} {acc : LabelState × List String}
    {e : Nat × AwarenessState} {a : String} :
    (a ∈ akeys (processClient env acc e).1.labelElements) ↔
      a ∈ akeys acc.1.labelElements ∨
        (e.1 ≠ env.ownClientID ∧ a = clientKeyOf e ∧
          ∃ c ∈ e.2.cursors.getD [], renderSuccess env c = true) := by
  unfold processClient
  by_cases h : e.1 = env.ownClientID
  · simp [h]
  · rw [if_neg h]
    dsimp only
    rw [keys_foldCursors]
    constructor
    · rintro (h1 | ⟨rfl, hc⟩)
      · exact Or.inl h1
      · exact Or.inr ⟨h, rfl, hc⟩
    · rintro (h1 | ⟨-, rfl, hc⟩)
      · exact Or.inl h1
      · exact Or.inr ⟨rfl, hc⟩

theorem keys_foldClients {env : Env} {snap : Snapshot}
    {acc : LabelState × List String} {a : String} :
    (a ∈ akeys (snap.foldl (processClient env) acc).1.labelElements) ↔
      a ∈ akeys acc.1.labelElements ∨ RenderedIn env snap a := by
  induction snap generalizing acc with
  | nil => simp [RenderedIn]
  | cons e rest ih =>
    rw [List.foldl_cons, ih, keys_processClient]
    unfold RenderedIn
    constructor
    · rintro ((h1 | ⟨hne, rfl, hc⟩) | ⟨ee, he, hp⟩)
      · exact Or.inl h1
      · exact Or.inr ⟨e, List.mem_cons_self _ _, hne, rfl, hc⟩
      · exact Or.inr ⟨ee, List.mem_cons_of_mem _ he, hp⟩
    · rintro (h1 | ⟨ee, he, hp⟩)
      · exact Or.inl (Or.inl h1)
      · rcases List.mem_cons.mp he with rfl | he'
        · exact Or.inl (Or.inr ⟨hp.1, hp.2.1.symm, hp.2.2⟩)
        · exact Or.inr ⟨ee, he', hp⟩

theorem foldClients_snd {env : Env} :
    ∀ (snap : Snapshot) (st : LabelState) (ks : List String),
    (snap.foldl (processClient env) (st, ks)).2 = ks ++ activeKeys env snap := by
  intro snap
  induction snap with
  | nil => simp [activeKeys]
  | cons e rest ih =>
    intro st ks
    rw [List.foldl_cons]
    by_cases h : e.1 = env.ownClientID
    · have hpc : processClient env (st, ks) e = (st, ks) := by
        simp [processClient, h]
      rw [hpc, ih]
      have hact : activeKeys env (e :: rest) = activeKeys env rest := by
        simp [activeKeys, List.filter_cons, h]
      rw [hact]
    · have hpc : processClient env (st, ks) e =
          ((e.2.cursors.getD []).foldl
            (fun s c => processCursor env (clientKeyOf e)
              (cursorLabelUserName e.2.user e.1) (cursorLabelUserColor e.2.user) s c) st,
            ks ++ [clientKeyOf e]) := by
        simp [processClient, h]
      rw [hpc, ih]
      have hact : activeKeys env (e :: rest) = clientKeyOf e :: activeKeys env rest := by
        simp [activeKeys, List.filter_cons, h]
      rw [hact]
      simp

theorem keys_eraseInactiveKey {userKey : String} {st : LabelState} {a : String}
    (hn : (akeys st.labelElements).Nodup) :
    (a ∈ akeys (eraseInactiveKey userKey st).labelElements) ↔
      a ∈ akeys st.labelElements ∧ a ≠ userKey := by
  unfold eraseInactiveKey
  cases alookup st.hideTimers userKey with
  | none => exact mem_akeys_aerase hn
  | some t => exact mem_akeys_aerase hn

theorem eraseInactiveKey_nl {userKey : String} {st : LabelState}
    (hn : (akeys st.labelElements).Nodup) :
    (akeys (eraseInactiveKey userKey st).labelElements).Nodup := by
  unfold eraseInactiveKey
  cases alookup st.hideTimers userKey with
  | none => exact nodup_akeys_aerase hn
  | some t => exact nodup_akeys_aerase hn

theorem keys_removeInactiveGo {activeUsers : List String}
    {l : List (String × Label)} {st : LabelState} {a : String}
    (hn : (akeys st.labelElements).Nodup) :
    (a ∈ akeys (removeInactiveGo activeUsers l st).labelElements) ↔
      a ∈ akeys st.labelElements ∧
        (activeUsers.contains a = true ∨ a ∉ akeys l) := by
  induction l generalizing st with
  | nil =>
    simp only [removeInactiveGo]
    simp [akeys]
  | cons kv rest ih =>
    unfold removeInactiveGo
    by_cases h : activeUsers.contains kv.1
    · rw [if_pos h, ih hn, akeys_cons]
      by_cases ha : a = kv.1
      · subst ha
        have hmem : kv.1 ∈ activeUsers := by
          simpa using h
        simp [h, hmem]
      · simp only [List.mem_cons]
        constructor
        · rintro ⟨h1, h2 | h2⟩
          · exact ⟨h1, Or.inl h2⟩
          · exact ⟨h1, Or.inr fun hm => h2 (hm.resolve_left ha)⟩
        · rintro ⟨h1, h2 | h2⟩
          · exact ⟨h1, Or.inl h2⟩
          · exact ⟨h1, Or.inr fun hm => h2 (Or.inr hm)⟩
    · rw [if_neg h, ih (eraseInactiveKey_nl hn), keys_eraseInactiveKey hn, akeys_cons]
      by_cases ha : a = kv.1
      · subst ha
        simp only [List.mem_cons, true_or, not_true_eq_false, or_false]
        constructor
        · rintro ⟨⟨-, hne⟩, -⟩
          exact absurd rfl hne
        · rintro ⟨-, hco⟩
          exact absurd hco h
      · simp only [List.mem_cons]
        constructor
        · rintro ⟨⟨h1, -⟩, h2 | h2⟩
          · exact ⟨h1, Or.inl h2⟩
          · exact ⟨h1, Or.inr fun hm => h2 (hm.resolve_left ha)⟩
        · rintro ⟨h1, h2 | h2⟩
          · exact ⟨⟨h1, ha⟩, Or.inl h2⟩
          · exact ⟨⟨h1, ha⟩, Or.inr fun hm => h2 (Or.inr hm)⟩

theorem contains_iff_mem {l : List String} {a : String} :
    l.contains a = true ↔ a ∈ l := by
  simp [List.contains, List.elem_iff]

theorem renderedIn_mem_activeKeys {env : Env} {snap : Snapshot} {a : String}
    (h : RenderedIn env snap a) : a ∈ activeKeys env snap := by
  obtain ⟨e, he, hne, rfl, -⟩ := h
  unfold activeKeys
  exact List.mem_map_of_mem clientKeyOf
    (List.mem_filter.mpr ⟨he, by simp [hne]⟩)

/-- The tracked key set after one pass: a key survives iff it was
tracked before and its client is still in the snapshot, or it received
a successful render this pass. -/
theorem keys_updateOverlayLabels {env : Env} {snap : Snapshot}
    {st : LabelState} (hw : WFState st) (a : String) :
    (a ∈ akeys (updateOverlayLabels env snap st).labelElements) ↔
      ((a ∈ akeys st.labelElements ∧ a ∈ activeKeys env snap) ∨
        RenderedIn env snap a) := by
  unfold updateOverlayLabels
  dsimp only
  have hnl := (@wf_foldClients env snap (st, ([] : List String)) hw).nl
  rw [keys_removeInactiveGo hnl, foldClients_snd snap st []]
  rw [keys_foldClients]
  simp only [List.nil_append, contains_iff_mem]
  constructor
  · rintro ⟨hmem | hr, hact | hnot⟩
    · exact Or.inl ⟨hmem, hact⟩
    · exact absurd (Or.inl hmem) hnot
    · exact Or.inr hr
    · exact absurd (Or.inr hr) hnot
  · rintro (⟨hmem, hact⟩ | hr)
    · exact ⟨Or.inl hmem, Or.inl hact⟩
    · exact ⟨Or.inr hr, Or.inl (renderedIn_mem_activeKeys hr)⟩

/-! ## Claim C1: the tracked key set after one pass -/

/-- A cursor that resolves into this surface's `ytext` but whose
coordinate lookup returns no result. -/
def coordsFail (env : Env) (c : Cursor) : Bool :=
  match c.head with
  | none => false
  | some relPos =>
    match env.resolve relPos with
    | none => false
    | some headAbs =>
      headAbs.typeIsThisYtext &&
        (env.coordsAtPos (clampPos headAbs.index env.docLength)).isNone

/-- A key with an in-container resolvable cursor whose coordinate
lookup transiently fails. -/
def CoordsFailIn (env : Env) (snap : Snapshot) (a : String) : Prop :=
  ∃ e ∈ snap, e.1 ≠ env.ownClientID ∧ clientKeyOf e = a ∧
    ∃ c ∈ e.2.cursors.getD [], coordsFail env c = true

instance (env : Env) (snap : Snapshot) (a : String) :
    Decidable (CoordsFailIn env snap a) := by
  unfold CoordsFailIn
  infer_instance

/-- Claim C1 as stated: after one pass the tracked key set is exactly
the keys with a resolvable in-container cursor, except that a key whose
coordinate lookup transiently fails keeps its already-rendered label. -/
def ClaimedLabelSet (env : Env) (snap : Snapshot) (st : LabelState) : Prop :=
  ∀ a, (a ∈ akeys (updateOverlayLabels env snap st).labelElements) ↔
    (RenderedIn env snap a ∨
      (CoordsFailIn env snap a ∧ a ∈ akeys st.labelElements))

/-- Counterexample environment: no cursor resolves, no layout. -/
def c1env : Env :=
  { ownClientID := 0, docLength := 10,
    resolve := fun _ => none, coordsAtPos := fun _ => none }

/-- A surface state already tracking the label of client 1 ("A"). -/
def c1st : LabelState :=
  { labelElements :=
      [("1-A", { name := "A", color := "#2196F3", left := 0, top := 0,
                 visible := true })]
    hideTimers := []
    pendingTimers := []
    nextTimer := 1 }

/-- Client 1 is still connected but now has no cursors at all. -/
def c1snap : Snapshot :=
  [(1, { user := some { name := some "A" }, cursors := some [] })]

/-- Claim C1, counterexample: a remote client that stays in the
awareness snapshot but no longer has any resolvable cursor in this
container keeps its label after the pass, although neither the
resolvable-cursor set nor the coordinate-lookup-failure exception
covers its key. -/
theorem c1_label_set_counterexample : ¬ ClaimedLabelSet c1env c1snap c1st := by
  intro h
  have h2 := h "1-A"
  revert h2
  decide

/-- Claim C1 (amended): after one reconciliation pass the tracked key
set equals (previous keys whose client key is still in the snapshot) ∪
(keys with a successfully rendered cursor this pass); retention is not
limited to transient coordinate-lookup failure — any key still present
in the awareness snapshot keeps its element, even with no resolvable
cursor in this container. -/
theorem c1_label_set_amended (env : Env) (snap : Snapshot) (st : LabelState)
    (hw : WFState st) (a : String) :
    (a ∈ akeys (updateOverlayLabels env snap st).labelElements) ↔
      ((a ∈ akeys st.labelElements ∧ a ∈ activeKeys env snap) ∨
        RenderedIn env snap a) :=
  keys_updateOverlayLabels hw a

/-- Witness for C1 (amended) at the concrete counterexample input. -/
theorem c1_label_set_amended_witness :
    ("1-A" ∈ akeys (updateOverlayLabels c1env c1snap c1st).labelElements) ↔
      (("1-A" ∈ akeys c1st.labelElements ∧ "1-A" ∈ activeKeys c1env c1snap) ∨
        RenderedIn c1env c1snap "1-A") :=
  c1_label_set_amended c1env c1snap c1st
    (by constructor <;> decide) "1-A"

/-! ## Claims C5 and C10: timer bookkeeping invariants -/

/-- Claim C5: at every instant (after any sequence of reconciliation
passes, timer expiries and destroys) at most one hide timer is
outstanding per user key: the pending-timer keys are pairwise
distinct. -/
theorem c5_at_most_one_timer_per_key (es : List LEvent) :
    ((lrun es).pendingTimers.map Prod.snd).Nodup :=
  (wf_lrun es).np

/-- Claim C10: after any event sequence, every key with an outstanding
hide-timer entry is also tracked in `labelElements`. -/
theorem c10_timer_keys_tracked (es : List LEvent) (a : String) :
    a ∈ akeys (lrun es).hideTimers → a ∈ akeys (lrun es).labelElements :=
  fun ha => (wf_lrun es).tl a ha

/-- Environment where client 1's cursor resolves and has coordinates. -/
def goodEnv : Env :=
  { ownClientID := 0, docLength := 10,
    resolve := fun _ => some { typeIsThisYtext := true, index := 3 },
    coordsAtPos := fun _ => some { left := 5, top := 20 } }

/-- Snapshot where remote client 1 has one cursor. -/
def goodSnap : Snapshot :=
  [(1, { user := some { name := some "A" },
         cursors := some [{ head := some 0 }] })]

/-- Witness for C10: after one rendering pass the hide-timer map is
nonempty, and its key is tracked. -/
theorem c10_timer_keys_tracked_witness :
    ("1-A" ∈ akeys (lrun [LEvent.pass goodEnv goodSnap]).hideTimers) ∧
      "1-A" ∈ akeys (lrun [LEvent.pass goodEnv goodSnap]).labelElements :=
  ⟨by decide, c10_timer_keys_tracked [LEvent.pass goodEnv goodSnap] "1-A" (by decide)⟩

/-! ## Claim C2: the color hash formula -/

/-- Claim C2: for every name (as its character-code sequence) the
derived color is the palette entry at `abs(h) mod 15`, where `h` is the
rolling hash `h := (h << 5) - h + charCode` wrapped to the 32-bit
signed range (the spec's formula, `hashSpec`); since `generateUserColor`
is a pure function of the name, any two observations of the same name
yield the identical color. -/
theorem c2_color_formula (cs : List Nat) :
    generateUserColor cs = colors.getD ((hashSpec cs).natAbs % 15) "" := by
  unfold generateUserColor
  rw [hashName_eq_spec]
  rfl

/-! ## Claim C8: bounds clamping before coordinate lookup -/

/-- Claim C8: the offset used for coordinate lookup is
`clamp(p, 0, docLength)` — `0` when the resolved index is negative,
`docLength` when it exceeds the document length, the index otherwise;
in particular offset `500` with document length `100` is looked up at
`100`.  (`clampPos` is the clamping applied by `processCursor` before
`coordsAtPos`.) -/
theorem c8_clamp_offset :
    (∀ (p : Int) (L : Nat), clampPos p L = (min (max p 0) (L : Int)).toNat) ∧
      clampPos 500 100 = 100 := by
  constructor
  · intro p L
    unfold clampPos
    split
    · omega
    · split
      · omega
      · omega
  · rfl

/-! ## Claim C9: the initials derivation -/

/-- Claim C9: initials are `'??'` for the empty name, the first two
characters of the single word uppercased for a one-word name, and the
first characters of the first and last words uppercased for a
multi-word name. -/
theorem c9_initials (cs : List Char) :
    (cs = [] → generateInitials cs = ['?', '?']) ∧
    (∀ w, wordsOf cs = [w] →
      generateInitials cs = (w.take 2).map Char.toUpper) ∧
    (∀ w ws, wordsOf cs = w :: ws → ws ≠ [] →
      generateInitials cs =
        (w.take 1 ++ ((w :: ws).getLastD []).take 1).map Char.toUpper) := by
  refine ⟨?_, ?_, ?_⟩
  · intro h
    subst h
    rfl
  · intro w hw
    have hcs : cs ≠ [] := by
      intro he
      rw [he] at hw
      simp [wordsOf, jsTrim, splitRunsAux] at hw
    have htr : jsTrim cs ≠ [] := by
      intro he
      unfold wordsOf at hw
      rw [he] at hw
      simp [splitRunsAux] at hw
    unfold generateInitials
    rw [if_neg hcs]
    unfold jsSplitWs
    rw [if_neg htr]
    unfold wordsOf at hw
    rw [hw]
    simp
  · intro w ws hw hne
    have hcs : cs ≠ [] := by
      intro he
      rw [he] at hw
      simp [wordsOf, jsTrim, splitRunsAux] at hw
    have htr : jsTrim cs ≠ [] := by
      intro he
      unfold wordsOf at hw
      rw [he] at hw
      simp [splitRunsAux] at hw
    unfold generateInitials
    rw [if_neg hcs]
    unfold jsSplitWs
    rw [if_neg htr]
    unfold wordsOf at hw
    rw [hw]
    have hlen : ¬((w :: ws).length = 1) := by
      cases ws with
      | nil => exact absurd rfl hne
      | cons b bs =>
        simp only [List.length_cons]
        omega
    rw [if_neg hlen]
    simp

/-- Witness for C9 at the spec's Scenario A name. -/
theorem c9_initials_witness :
    wordsOf ("Ada Lovelace".toList) =
        [['A', 'd', 'a'], ['L', 'o', 'v', 'e', 'l', 'a', 'c', 'e']] ∧
      generateInitials ("Ada Lovelace".toList) = ['A', 'L'] := by
  refine ⟨by decide, ?_⟩
  have h := (c9_initials ("Ada Lovelace".toList)).2.2
    ['A', 'd', 'a'] [['L', 'o', 'v', 'e', 'l', 'a', 'c', 'e']]
    (by decide) (by decide)
  rw [h]
  decide


/-! ## Claim C3: per-surface name resolution

Three different resolutions exist in the source:
toolbar (src/index.ts line 132): `user.name || user.displayName ||
`User ${clientId}``; cursor-label surface (src/cursor-labels.ts line
241): `user?.display_name || user?.name || `User ${clientID}``; cell
surface (src/cursor-labels.ts lines 897-900): `user.name ||
user.display_name` with the user skipped when falsy. -/

/-- The toolbar roster's name resolution. -/
def toolbarUserName (u : Option User) (clientId : Nat) : String :=
  jsOrS (jsOr (u.bind User.name) (u.bind User.displayName))
    ("User " ++ toString clientId)

/-- The cell surface's name resolution; `none`/empty means the user is
skipped. -/
def cellUserName (u : Option User) : Option String :=
  jsOr (u.bind User.name) (u.bind User.display_name)

/-- A toolbar roster entry (`ICollaborator`, src/index.ts lines 19-26). -/
structure ToolbarCollaborator where
  name : String
  initials : String
  email : String
  avatar_url : String
  color : String
  clientId : Nat
deriving Repr, DecidableEq

/-- `_updateCollaboratorsFromAwareness` (src/index.ts lines 116-149):
rebuild the toolbar collaborator map from the snapshot, skipping the
local client. -/
def updateCollaboratorsFromAwareness (own : Nat) (snap : Snapshot) :
    List (Nat × ToolbarCollaborator) :=
  snap.foldl (fun acc e =>
    if e.1 = own then acc
    else
      let user := e.2.user
      let name := toolbarUserName user e.1
      let email := jsOrS (user.bind User.email) ""
      let avatar_url :=
        jsOrS (jsOr (user.bind User.avatar_url) (user.bind User.avatarUrl)) ""
      let color := jsOrS (user.bind User.color) (generateUserColorS name)
      let initials := String.mk (generateInitials name.toList)
      aset acc e.1
        { name := name, initials := initials, email := email,
          avatar_url := avatar_url, color := color, clientId := e.1 }) []

/-- A cell-surface entry (`ICellCollaborator`,
src/cursor-labels.ts lines 607-620). -/
structure CellCollaborator where
  name : String
  initials : String
  email : String
  avatar_url : String
  color : String
  clientId : Nat
deriving Repr, DecidableEq

/-- `_updateCellCollaborators` (src/cursor-labels.ts lines 867-956):
rebuild the cell-id → collaborators map from the snapshot; `resolveCell`
composes head resolution with the ytext → cell-id lookup.  A user
whose `user.name || user.display_name` is falsy is skipped entirely. -/
def updateCellCollaborators (own : Nat) (resolveCell : Nat → Option String)
    (snap : Snapshot) : List (String × List (Nat × CellCollaborator)) :=
  snap.foldl (fun acc e =>
    if e.1 = own then acc
    else
      let nameOpt := cellUserName e.2.user
      if jsTruthy nameOpt then
        let name := nameOpt.getD ""
        let user := e.2.user
        let email := jsOrS (user.bind User.email) ""
        let avatar_url :=
          jsOrS (jsOr (user.bind User.avatar_url) (user.bind User.avatarUrl)) ""
        let color := jsOrS (user.bind User.color) (generateUserColorS name)
        let collab : CellCollaborator :=
          { name := name, initials := String.mk (generateInitials name.toList),
            email := email, avatar_url := avatar_url, color := color,
            clientId := e.1 }
        (e.2.cursors.getD []).foldl (fun acc2 c =>
          match c.head with
          | none => acc2
          | some r =>
            match resolveCell r with
            | none => acc2
            | some cellId =>
              aset acc2 cellId (aset ((alookup acc2 cellId).getD []) e.1 collab))
          acc
      else acc) []

/-- Remote client 7 with a cursor but no `user` field at all. -/
def c3snap : Snapshot :=
  [(7, { user := none, cursors := some [{ head := some 0 }] })]

/-- Every relative position lands in cell "cellA". -/
def c3resolveCell : Nat → Option String := fun _ => some "cellA"

/-- Claim C3 as stated, at the concrete input: the per-cell surface is
claimed to synthesize the fallback name `"User 7"` for a user with no
name fields, and the cursor-label surface is claimed to render nothing
for that user. -/
def ClaimedC3AtInput : Prop :=
  (∃ cell ∈ updateCellCollaborators 0 c3resolveCell c3snap,
    ∃ p ∈ cell.2, p.2.name = "User 7") ∧
  akeys (updateOverlayLabels goodEnv c3snap initLabelState).labelElements = []

/-- Claim C3, counterexample: with no name fields the cursor-label
surface renders a label keyed `"7-User 7"` (it uses the fallback, it
does not skip), and the per-cell surface produces no collaborator at
all (it skips, it does not use the fallback). -/
theorem c3_name_resolution_counterexample : ¬ ClaimedC3AtInput := by
  intro h
  exact absurd h.2 (by decide)

/-- Claim C3 (amended): the cursor-label surface resolves
`display_name`, then `name`, then synthesizes `"User {clientId}"` and
renders with that fallback; the toolbar resolves `name` first, then
`displayName`, then the same fallback; the per-cell surface resolves
`name`, then `display_name`, and skips the user entirely when both are
missing. -/
theorem c3_name_resolution_amended (cid : Nat) (n d : String)
    (hn : n ≠ "") (hd : d ≠ "") :
    (toolbarUserName (some { name := some n, displayName := some d }) cid = n) ∧
    (cursorLabelUserName (some { name := some n, display_name := some d }) cid = d) ∧
    (toolbarUserName none cid = "User " ++ toString cid) ∧
    (cursorLabelUserName none cid = "User " ++ toString cid) ∧
    (jsTruthy (cellUserName none) = false) ∧
    (updateCellCollaborators 0 c3resolveCell c3snap = []) ∧
    (akeys (updateOverlayLabels goodEnv c3snap initLabelState).labelElements =
      ["7-User 7"]) := by
  have hbn : (n == "") = false := beq_eq_false_iff_ne.mpr hn
  have hbd : (d == "") = false := beq_eq_false_iff_ne.mpr hd
  refine ⟨?_, ?_, ?_, ?_, ?_, by decide, by decide⟩
  · simp [toolbarUserName, jsOr, jsOrS, jsTruthy, hbn]
  · simp [cursorLabelUserName, jsOr, jsOrS, jsTruthy, hbd]
  · simp [toolbarUserName, jsOr, jsOrS, jsTruthy]
  · simp [cursorLabelUserName, jsOr, jsOrS, jsTruthy]
  · simp [cellUserName, jsOr, jsTruthy]

/-- Witness for C3 (amended) at concrete names. -/
theorem c3_name_resolution_amended_witness :
    (toolbarUserName (some { name := some "Ann", displayName := some "Bea" }) 3 =
      "Ann") ∧
    (cursorLabelUserName (some { name := some "Ann", display_name := some "Bea" }) 3 =
      "Bea") ∧
    (toolbarUserName none 3 = "User " ++ toString 3) ∧
    (cursorLabelUserName none 3 = "User " ++ toString 3) ∧
    (jsTruthy (cellUserName none) = false) ∧
    (updateCellCollaborators 0 c3resolveCell c3snap = []) ∧
    (akeys (updateOverlayLabels goodEnv c3snap initLabelState).labelElements =
      ["7-User 7"]) :=
  c3_name_resolution_amended 3 "Ann" "Bea" (by decide) (by decide)

/-! ## Claims C4 and C6: toolbar widget lifecycle
(`DocumentCollaboratorsWidget`, src/index.ts lines 65-500)

`listeners` is the awareness change-listener registry restricted to
functions this widget passes to `on`/`off`; each evaluation of
`this._onAwarenessChange.bind(this)` allocates a fresh function object,
modelled by the `bindCounter` token.  `attachedModals` are the modal
nodes currently under `document.body`; `removalTimers` are scheduled
200 ms `_hideCurrentModal` callbacks; `hideDebounce` is the pending
`_scheduleHideModal` timer. -/

structure ToolbarState where
  listeners : List Nat
  bindCounter : Nat
  attachedModals : List Nat
  currentModal : Option Nat
  hideDebounce : Option Nat
  removalTimers : List Nat
  nextModalId : Nat
  nextTimerId : Nat
deriving Repr, DecidableEq

/-- Widget state at construction. -/
def initToolbarState : ToolbarState :=
  { listeners := [], bindCounter := 0, attachedModals := [],
    currentModal := none, hideDebounce := none, removalTimers := [],
    nextModalId := 0, nextTimerId := 1 }

/-- `_connectToAwareness` (lines 87-109):
`this._awareness.on('change', this._onAwarenessChange.bind(this))` —
the fresh bound function is what gets registered. -/
def connectAwareness (s : ToolbarState) : ToolbarState :=
  { s with listeners := s.listeners ++ [s.bindCounter]
           bindCounter := s.bindCounter + 1 }

/-- `_clearHideModalTimeout` (lines 470-475). -/
def clearHideModalTimeout (s : ToolbarState) : ToolbarState :=
  { s with hideDebounce := none }

/-- `_hideCurrentModal` (lines 477-487): when a modal is current, drop
its visible class and schedule a removal callback 200 ms later; the
callback reads `this._currentModal` at fire time (it captures no
modal), so only a timer is recorded here. -/
def hideCurrentModal (s : ToolbarState) : ToolbarState :=
  match s.currentModal with
  | none => s
  | some _ =>
    { s with removalTimers := s.removalTimers ++ [s.nextTimerId]
             nextTimerId := s.nextTimerId + 1 }

/-- The 200 ms `_hideCurrentModal` callback (lines 480-485): detach
whatever modal is current when the timer fires, then null
`_currentModal`. -/
def fireModalRemoval (t : Nat) (s : ToolbarState) : ToolbarState :=
  if s.removalTimers.contains t then
    let s1 := { s with removalTimers := s.removalTimers.filter (fun x => !(x == t)) }
    match s1.currentModal with
    | some m =>
      { s1 with
        attachedModals :=
          if s1.attachedModals.contains m then
            s1.attachedModals.filter (fun x => !(x == m))
          else s1.attachedModals
        currentModal := none }
    | none => s1
  else s

/-- `_showCollaboratorModal` (lines 290-296) followed by
`_positionAndShowModal` (lines 432-461): cancel the debounce, begin
hiding the current modal, then attach a fresh modal node to
`document.body` and record it as current. -/
def showCollaboratorModal (s : ToolbarState) : ToolbarState :=
  let s2 := hideCurrentModal (clearHideModalTimeout s)
  { s2 with attachedModals := s2.attachedModals ++ [s2.nextModalId]
            currentModal := some s2.nextModalId
            nextModalId := s2.nextModalId + 1 }

/-- `_scheduleHideModal` (lines 463-468). -/
def scheduleHideModal (s : ToolbarState) : ToolbarState :=
  let s1 := clearHideModalTimeout s
  { s1 with hideDebounce := some s1.nextTimerId
            nextTimerId := s1.nextTimerId + 1 }

/-- The debounce callback: `_hideCurrentModal` when still pending. -/
def fireHideDebounce (t : Nat) (s : ToolbarState) : ToolbarState :=
  if s.hideDebounce = some t then
    hideCurrentModal { s with hideDebounce := none }
  else s

/-- `dispose` (lines 492-499):
`off('change', this._onAwarenessChange.bind(this))` — `.bind` allocates
another fresh function, so `off` removes that fresh token (never
registered), not the listener registered by `on`; then clear the
debounce and begin hiding the current modal. -/
def disposeWidget (s : ToolbarState) : ToolbarState :=
  let offToken := s.bindCounter
  let s1 := { s with
    listeners := s.listeners.filter (fun x => !(x == offToken))
    bindCounter := s.bindCounter + 1 }
  hideCurrentModal (clearHideModalTimeout s1)

/-- Claim C4, failing evaluation: connect the toolbar widget to
awareness, show one modal, then `dispose()`.  Immediately after
dispose the listener registered by `on` is still registered (the `off`
call received a different `.bind` result), one removal timer is still
pending, and the modal node is still attached to `document.body`. -/
theorem c4_dispose_incomplete_teardown :
    (disposeWidget (showCollaboratorModal (connectAwareness initToolbarState))).listeners
        = [0] ∧
      (disposeWidget (showCollaboratorModal (connectAwareness initToolbarState))).removalTimers
        = [1] ∧
      (disposeWidget (showCollaboratorModal (connectAwareness initToolbarState))).attachedModals
        = [0] := by
  decide

/-- Claim C6, failing evaluation: show modal 0, show modal 1 within the
200 ms window, then let the pending removal timer fire.  After the
second show both modals are attached (the first was not removed before
the second was displayed); when the timer fires, the callback removes
`this._currentModal` — by then the second, still-current modal — so the
new modal is detached and the first remains attached with no timer left
to ever remove it. -/
theorem c6_modal_not_singleton :
    (showCollaboratorModal (showCollaboratorModal initToolbarState)).attachedModals
        = [0, 1] ∧
      (showCollaboratorModal (showCollaboratorModal initToolbarState)).currentModal
        = some 1 ∧
      (fireModalRemoval 1 (showCollaboratorModal (showCollaboratorModal initToolbarState))).attachedModals
        = [0] ∧
      (fireModalRemoval 1 (showCollaboratorModal (showCollaboratorModal initToolbarState))).currentModal
        = none ∧
      (fireModalRemoval 1 (showCollaboratorModal (showCollaboratorModal initToolbarState))).removalTimers
        = [] := by
  decide

/-! ## Claim C7: animation-frame scheduling of the cursor-label surface
(`_listener`, src/cursor-labels.ts lines 165-178, and `update`,
lines 210-221)

Each qualifying notification calls `requestAnimationFrame` with its own
callback; there is no pending flag, so callbacks accumulate until the
frame fires, and each one runs `updateOverlayLabels` against the
awareness state current at frame time. -/

/-- `n` reconciliation passes against the same frame-time snapshot. -/
def iterPass (env : Env) (snap : Snapshot) : Nat → LabelState → LabelState
  | 0, st => st
  | Nat.succ n, st => iterPass env snap n (updateOverlayLabels env snap st)

/-- Scheduler state: queued rAF callbacks, executed passes, and the
surface state. -/
structure RafState where
  pending : Nat
  passes : Nat
  st : LabelState
deriving Repr, DecidableEq

/-- Scheduler state at plugin construction. -/
def initRafState : RafState :=
  { pending := 0, passes := 0, st := initLabelState }

/-- Scheduler events: an awareness change notification (with the client
ids from `added.concat(updated).concat(removed)`), or the next
animation frame. -/
inductive REvent where
  | notify (changed : List Nat)
  | frame (env : Env) (snap : Snapshot)

/-- One scheduler step: `_listener` queues one rAF callback per
notification that names a client other than the local one; at the
frame, every queued callback runs `updateOverlayLabels` against the
then-current snapshot. -/
def rstep (own : Nat) (s : RafState) : REvent → RafState
  | REvent.notify changed =>
    if changed.any (fun cid => cid != own) then
      { s with pending := s.pending + 1 }
    else s
  | REvent.frame env snap =>
    { pending := 0, passes := s.passes + s.pending,
      st := iterPass env snap s.pending s.st }

/-- A scheduler run from plugin construction. -/
def rrun (own : Nat) (es : List REvent) : RafState :=
  es.foldl (rstep own) initRafState

/-- A burst: `n` notifications naming a remote client inside one frame
window, then the frame. -/
def burst (own : Nat) (env : Env) (snap : Snapshot) (n : Nat) : List REvent :=
  List.replicate n (REvent.notify [own + 1]) ++ [REvent.frame env snap]

/-- Claim C7 as stated: any burst yields exactly one reconciliation
pass at the frame. -/
def ClaimedSinglePass : Prop :=
  ∀ (own : Nat) (env : Env) (snap : Snapshot) (n : Nat), 0 < n →
    (rrun own (burst own env snap n)).passes = 1

/-- Claim C7, counterexample: ten notifications within one frame window
produce ten reconciliation passes, not one. -/
theorem c7_coalescing_counterexample : ¬ ClaimedSinglePass := by
  intro h
  have h10 := h 0 c1env [] 10 (by decide)
  revert h10
  decide

theorem rrun_notifies (own : Nat) (n : Nat) :
    ∀ s : RafState,
      (List.replicate n (REvent.notify [own + 1])).foldl (rstep own) s =
        { s with pending := s.pending + n } := by
  induction n with
  | zero =>
    intro s
    simp [List.replicate]
  | succ k ih =>
    intro s
    rw [List.replicate_succ, List.foldl_cons]
    have hstep : rstep own s (REvent.notify [own + 1]) =
        { s with pending := s.pending + 1 } := by
      simp [rstep, Nat.succ_ne_self]
    rw [hstep, ih]
    have harith : s.pending + 1 + k = s.pending + (k + 1) := by omega
    rw [harith]

/-- Claim C7 (amended): a burst of `n` notifications naming a remote
client schedules `n` separate animation-frame callbacks, so `n`
reconciliation passes execute at the frame — each against the
frame-time (last) snapshot — and nothing is coalesced; a notification
naming only the local client schedules no pass at all. -/
theorem c7_one_pass_per_notification (own : Nat) (env : Env) (snap : Snapshot)
    (n : Nat) :
    (rrun own (burst own env snap n)).passes = n ∧
    (rrun own (burst own env snap n)).st = iterPass env snap n initLabelState ∧
    (rrun own (burst own env snap n)).pending = 0 ∧
    rstep own initRafState (REvent.notify [own]) = initRafState := by
  have h1 : rrun own (burst own env snap n) =
      { pending := 0, passes := n,
        st := iterPass env snap n initLabelState } := by
    unfold rrun burst
    rw [List.foldl_append, rrun_notifies own n initRafState]
    simp [rstep, initRafState]
  refine ⟨by rw [h1], by rw [h1], by rw [h1], ?_⟩
  simp [rstep]

end DocCollab
